import Mathlib

/-!
Shallow embedding of the HAARVI sample-cleaning script and proofs about the
claims of its specification.

The script ingests spreadsheet rows into one pandas DataFrame (the
Consolidated Table), runs four column validators over it, and appends
Diagnostic Entries to a log file.  We embed the table as a list of row
records, each validator as a function from that list to a new list plus the
log entries it appends (the mutable DataFrame becomes the first component of
the result, the append-only log file the second), and the run-time current
date as an explicit parameter.  Cell values are a sum of the Python values
that actually flow through the pipeline: a missing marker (NaN / NaT), a
string, a parsed date (pandas Timestamp at midnight), and a boolean.
Calendar dates are encoded as the natural number y * 10000 + m * 100 + d,
which orders valid dates exactly as pandas Timestamps do.
-/

/-- A cell value of the table: missing (NaN / NaT / None), a string, a
parsed calendar date (encoded y * 10000 + m * 100 + d), or a boolean. -/
inductive Cell where
  | null : Cell
  | str : String → Cell
  | date : Nat → Cell
  | bool : Bool → Cell
deriving DecidableEq, Inhabited

/-- One row of the Consolidated Table: the four domain columns the
validators touch, plus the two provenance columns added at ingestion
(SourceFile and OriginalRow). -/
structure Row where
  barcode : Cell
  ptid : Cell
  dateCollected : Cell
  available : Cell
  sourceFile : String
  originalRow : Nat
deriving DecidableEq, Inhabited

/-- One Diagnostic Entry as written by log_invalid_row: source file name,
table-internal index, original row number, and the list of issues. -/
structure LogEntry where
  fileName : String
  masterIndex : Nat
  sourceRowIndex : Nat
  issues : List String
deriving DecidableEq, Inhabited

/-- The single-quote character, used when rendering Python f-strings such
as "Barcode_ID died" that wrap the offending value in single quotes. -/
def sglQuote : String := String.singleton (Char.ofNat 39)

/-- Wrap a string in single quotes, as the f-strings of the script do. -/
def quoted (s : String) : String := sglQuote ++ s ++ sglQuote

/-- Python str() on the values that occur in a cell: NaN prints as nan, a
string prints as itself, a Timestamp prints as YYYY-MM-DD 00:00:00, and a
boolean prints as True / False. -/
def pad2 (n : Nat) : String :=
  if n < 10 then "0" ++ toString n else toString n

/-- Render an encoded date the way str() renders a midnight pandas
Timestamp: YYYY-MM-DD 00:00:00. -/
def tsRepr (d : Nat) : String :=
  toString (d / 10000) ++ "-" ++ pad2 (d / 100 % 100) ++ "-" ++ pad2 (d % 100)
    ++ " 00:00:00"

def Cell.pyStr : Cell → String
  | .null => "nan"
  | .str s => s
  | .date d => tsRepr d
  | .bool b => if b then "True" else "False"

/-- pd.isnull on a cell value: true exactly for the missing marker. -/
def Cell.isNull : Cell → Bool
  | .null => true
  | _ => false

/-- log_invalid_row (source lines 16-21): one appended log block. -/
def log_invalid_row (fileName : String) (masterIndex : Nat)
    (sourceRowIndex : Nat) (issues : List String) : LogEntry :=
  { fileName := fileName, masterIndex := masterIndex,
    sourceRowIndex := sourceRowIndex, issues := issues }

/-- The shape shared by the loops of validate_ptid and
validate_collection_date: iterate the rows with a running positional index,
compute the issue list of each row, and log one entry per row whose issue
list is nonempty, immediately, in row order.  f receives the index and the
row; i0 is the index of the first row of the remaining list. -/
def rowPass (f : Nat → Row → List String) : List Row → Nat → List LogEntry
  | [], _ => []
  | r :: rest, i0 =>
    (let issues := f i0 r
     if issues.isEmpty then []
     else [log_invalid_row r.sourceFile i0 r.originalRow issues])
      ++ rowPass f rest (i0 + 1)

/-! ## Identifier validator (validate_barcodeid, source lines 66-104) -/

/-- The issue classification of one Barcode_ID cell (source lines 76-80):
the length of str(value) is tested first; only if it equals 8 is the null
check reached. -/
def barcodeRowIssues (c : Cell) : List String :=
  if (Cell.pyStr c).length ≠ 8 then
    ["Barcode_ID " ++ quoted (Cell.pyStr c) ++ " length is not equal to 8"]
  else if c.isNull then ["Barcode_ID is NA"]
  else []

/-- Number of rows whose Barcode_ID equals the given cell value (pandas
treats NaN as equal to NaN for uniqueness and duplicate detection). -/
def barcodeCount (rows : List Row) (c : Cell) : Nat :=
  (rows.filter (fun r => r.barcode == c)).length

/-- Series.is_unique on the Barcode_ID column: every value (the missing
marker included) occurs exactly once. -/
def barcodeIsUnique (rows : List Row) : Bool :=
  rows.all (fun r => barcodeCount rows r.barcode == 1)

/-- Python repr of a list of indices, as produced by list(indicies) inside
the duplicate issue f-string. -/
def listRepr (xs : List Nat) : String :=
  "[" ++ String.intercalate ", " (xs.map toString) ++ "]"

/-- The string carried by a Barcode_ID cell, if any: groupby keys are the
cell values themselves, and the missing marker is dropped by groupby. -/
def barcodeStr : Cell → Option String
  | .str s => some s
  | _ => none

/-- The table indices holding a given Barcode_ID string, ascending, as
groupby(...).groups lists them. -/
def dupIdxs (rows : List Row) (s : String) : List Nat :=
  (List.range rows.length).filter
    (fun i => (rows.getD i default).barcode == Cell.str s)

/-- The distinct non-null Barcode_ID values of the table in sorted order:
groupby sorts its keys and drops the missing marker (dropna defaults to
true). -/
def dupKeys (rows : List Row) : List String :=
  List.insertionSort (fun a b => a ≤ b)
    ((rows.filterMap (fun r => barcodeStr r.barcode)).dedup)

/-- The duplicate group of one key value: its index list when the value
occurs in at least two rows (the rows marked by duplicated with keep set to
False), none otherwise. -/
def dupGroupOf (rows : List Row) (s : String) : Option (String × List Nat) :=
  let idxs := dupIdxs rows s
  if 2 ≤ idxs.length then some (s, idxs) else none

/-- duplicates.groupby("Barcode_ID").groups (source lines 91-93): each
non-null value occurring in at least two rows, with the full ascending list
of its table indices. -/
def dupGroups (rows : List Row) : List (String × List Nat) :=
  (dupKeys rows).filterMap (dupGroupOf rows)

/-- The issue text of one duplicate group. -/
def dupIssueStr (s : String) (idxs : List Nat) : String :=
  "Duplicate Barcode_ID: " ++ quoted s ++ " found in rows: " ++ listRepr idxs

/-- The entries logged for one duplicate group (source lines 95-101): one
entry per member row, every member carrying the same issue string with the
same full index list. -/
def dupGroupEntries (rows : List Row) (g : String × List Nat) : List LogEntry :=
  g.2.map (fun i =>
    log_invalid_row (rows.getD i default).sourceFile i
      (rows.getD i default).originalRow [dupIssueStr g.1 g.2])

/-- All entries of the duplicate-reporting loop. -/
def dupPassEntries (rows : List Row) : List LogEntry :=
  (dupGroups rows).flatMap (dupGroupEntries rows)

/-- The entries logged by the per-row block of validate_barcodeid.  In the
source the block `if issues:` (line 85) sits outside the for loop, so only
the issue list of the final iteration is ever logged, with the final index;
on an empty table the names issues and idx are unbound and the call raises. -/
def barcodePerRowEntries (rows : List Row) : List LogEntry :=
  match rows.getLast? with
  | none => []
  | some lastRow =>
    let issues := barcodeRowIssues lastRow.barcode
    if issues.isEmpty then []
    else [log_invalid_row lastRow.sourceFile (rows.length - 1)
            lastRow.originalRow issues]

/-- validate_barcodeid (source lines 66-104).  First component: the table
after the call (the function never writes the DataFrame).  Second
component: the appended log entries, or the uncaught exception the call
raises — UnboundLocalError on issues when the table is empty (line 85
reads the loop variable after zero iterations), UnboundLocalError on
grouped when the column is unique (line 95 reads a name assigned only
inside the branch of line 91). -/
def validate_barcodeid (rows : List Row) :
    List Row × Except String (List LogEntry) :=
  (rows,
   match rows.getLast? with
   | none => .error "UnboundLocalError: issues"
   | some _ =>
     if barcodeIsUnique rows then .error "UnboundLocalError: grouped"
     else .ok (barcodePerRowEntries rows ++ dupPassEntries rows))

/-! ## Patient-ID validator (validate_ptid, source lines 107-132) -/

/-- Substring containment, Python `needle in haystack` on strings. -/
def strContains (hay sub : String) : Bool :=
  decide (sub.toList <:+: hay.toList)

/-- The issue classification of one Patient_Study_ID cell (source lines
117-121): null first, then the substring test against C, H, IN on
str(value). -/
def ptidRowIssues (c : Cell) : List String :=
  if c.isNull then ["PTID is NA"]
  else if ["C", "H", "IN"].any (fun t => strContains (Cell.pyStr c) t) then []
  else ["PTID " ++ quoted (Cell.pyStr c) ++ " is not correctly formatted"]

/-- validate_ptid (source lines 107-132): purely diagnostic, logs one entry
per row with issues, inside the loop (line 126), and never writes the
DataFrame. -/
def validate_ptid (rows : List Row) : List Row × List LogEntry :=
  (rows, rowPass (fun _ r => ptidRowIssues r.ptid) rows 0)

/-! ## Collection-date validator (validate_collection_date, lines 135-165) -/

/-- Split a list of characters at every slash, as splitOn does with the
slash separator on the characters of the string. -/
def splitSlash : List Char → List (List Char)
  | [] => [[]]
  | c :: cs =>
    if c = Char.ofNat 47 then [] :: splitSlash cs
    else
      match splitSlash cs with
      | [] => [[c]]
      | hd :: tl => (c :: hd) :: tl

/-- Value of a digit-only character list, none when empty or not all
digits. -/
def digitsToNat (cs : List Char) : Option Nat :=
  if cs.length ≠ 0 && cs.all (fun c => c.isDigit) then
    some (cs.foldl (fun n c => n * 10 + (c.toNat - 48)) 0)
  else none

def isLeap (y : Nat) : Bool :=
  (y % 4 == 0 && y % 100 != 0) || y % 400 == 0

def daysInMonth (y m : Nat) : Nat :=
  if m == 2 then (if isLeap y then 29 else 28)
  else if m == 4 || m == 6 || m == 9 || m == 11 then 30
  else 31

/-- strptime with format %m/%d/%Y as pd.to_datetime applies it: three
slash-separated numeric fields, month and day of at most two digits within
calendar range, four-digit year.  Returns the encoded date. -/
def parseMDY (s : String) : Option Nat :=
  match splitSlash s.toList with
  | [ms, ds, ys] =>
    match digitsToNat ms, digitsToNat ds, digitsToNat ys with
    | some m, some d, some y =>
      if 1 ≤ m ∧ m ≤ 12 ∧ 1 ≤ d ∧ d ≤ daysInMonth y m
          ∧ ms.length ≤ 2 ∧ ds.length ≤ 2 ∧ ys.length = 4 then
        some (y * 10000 + m * 100 + d)
      else none
    | _, _, _ => none
  | _ => none

/-- pd.to_datetime with errors coerce and format %m/%d/%Y, on one cell: an
already-parsed date passes through, a string is parsed by the format or
coerced to the missing marker, anything else is coerced to the missing
marker. -/
def to_datetime (c : Cell) : Cell :=
  match c with
  | .date d => .date d
  | .str s =>
    match parseMDY s with
    | some d => .date d
    | none => .null
  | _ => .null

/-- The fixed lower bound date(2020, 2, 14) of the range check, encoded. -/
def startDate : Nat := 20200214

/-- The issue classification of one normalized Date_Collected cell (source
lines 150-154), against the run-time current date: null yields the NA
issue, a date strictly before the lower bound or strictly after today
yields the out-of-range issue. -/
def dateRowIssues (today : Nat) (c : Cell) : List String :=
  if c.isNull then ["Date_Collected is NA"]
  else
    match c with
    | .date d =>
      if d < startDate ∨ today < d then
        ["Date_Collected is outside of range, date: " ++ tsRepr d]
      else []
    | _ => []

/-- validate_collection_date (source lines 135-165): first the whole column
is overwritten by its to_datetime image (line 140), then the loop logs one
entry per invalid row, inside the loop (line 159). -/
def validate_collection_date (today : Nat) (rows : List Row) :
    List Row × List LogEntry :=
  let rows2 := rows.map (fun r =>
    { r with dateCollected := to_datetime r.dateCollected })
  (rows2, rowPass (fun _ r => dateRowIssues today r.dateCollected) rows2 0)

/-! ## Availability validator (validate_available, source lines 168-199) -/

/-- The value written back to the Available cell of a row (source lines
177-187): null and Y become True, N becomes False, everything else becomes
True. -/
def availNewValue (c : Cell) : Cell :=
  if c.isNull then .bool true
  else if c == .str "N" then .bool false
  else if c == .str "Y" then .bool true
  else .bool true

/-- The issue list of one Available cell at a given index: only the final
else branch (line 188) records an issue. -/
def availRowIssues (idx : Nat) (c : Cell) : List String :=
  if c.isNull then []
  else if c == .str "N" then []
  else if c == .str "Y" then []
  else ["Availability is unknown at index: " ++ toString idx
          ++ ", check to confirm availability"]

/-- validate_available (source lines 168-199).  Every row's Available cell
is rewritten inside the loop; but the block `if issues:` (line 193) sits
outside the loop, so only the issue list of the final iteration is ever
logged, and on an empty table the name issues is unbound and the call
raises. -/
def validate_available (rows : List Row) :
    List Row × Except String (List LogEntry) :=
  (rows.map (fun r => { r with available := availNewValue r.available }),
   match rows.getLast? with
   | none => .error "UnboundLocalError: issues"
   | some lastRow =>
     let issues := availRowIssues (rows.length - 1) lastRow.available
     .ok (if issues.isEmpty then []
          else [log_invalid_row lastRow.sourceFile (rows.length - 1)
                  lastRow.originalRow issues]))

/-! ## Consolidated Table builder (extract_data, source lines 24-63) -/

/-- The concatenation step of extract_data (source lines 46-63), taking the
per-file row collections already tagged with SourceFile and OriginalRow
(the archive and spreadsheet reading are external I/O): pd.concat raises
when the list of frames is empty, and otherwise returns every row in
file-then-row order with a fresh dense index. -/
def extract_data (dfs : List (List Row)) : Except String (List Row) :=
  if dfs.isEmpty then .error "EmptyInputError: no objects to concatenate"
  else .ok dfs.flatten

/-! ## General lemmas about the embedding -/

theorem rowPass_index_ge (f : Nat → Row → List String) :
    ∀ (rows : List Row) (i0 : Nat), ∀ e ∈ rowPass f rows i0, i0 ≤ e.masterIndex := by
  intro rows
  induction rows with
  | nil =>
    intro i0 e he
    simp [rowPass] at he
  | cons r rest ih =>
    intro i0 e he
    simp only [rowPass, List.mem_append] at he
    rcases he with he | he
    · split at he
      · simp at he
      · simp only [List.mem_singleton] at he
        subst he
        exact Nat.le_refl i0
    · exact Nat.le_of_succ_le (ih (i0 + 1) e he)

theorem rowPass_filter (f : Nat → Row → List String) :
    ∀ (rows : List Row) (i i0 : Nat) (r : Row), rows[i]? = some r →
      (rowPass f rows i0).filter (fun e => e.masterIndex == i0 + i) =
        (if (f (i0 + i) r).isEmpty then []
         else [log_invalid_row r.sourceFile (i0 + i) r.originalRow (f (i0 + i) r)]) := by
  intro rows
  induction rows with
  | nil =>
    intro i i0 r h
    simp at h
  | cons r0 rest ih =>
    intro i i0 r h
    cases i with
    | zero =>
      have hr : r0 = r := by simpa using h
      subst hr
      have htail : (rowPass f rest (i0 + 1)).filter
          (fun e => e.masterIndex == i0 + 0) = [] := by
        refine List.filter_eq_nil_iff.mpr ?_
        intro e he
        have hge := rowPass_index_ge f rest (i0 + 1) e he
        simp only [beq_iff_eq]
        omega
      simp only [rowPass, List.filter_append, htail, List.append_nil]
      by_cases hempty : (f i0 r0).isEmpty
      · simp [hempty]
      · simp [hempty, log_invalid_row]
    | succ i =>
      have h' : rest[i]? = some r := by simpa using h
      have hhead : ((if (f i0 r0).isEmpty then []
            else [log_invalid_row r0.sourceFile i0 r0.originalRow (f i0 r0)]).filter
          (fun e => e.masterIndex == i0 + (i + 1))) = [] := by
        refine List.filter_eq_nil_iff.mpr ?_
        intro e he
        split at he
        · simp at he
        · simp only [List.mem_singleton] at he
          subst he
          simp only [log_invalid_row, beq_iff_eq]
          omega
      simp only [rowPass, List.filter_append, hhead, List.nil_append]
      have harith : i0 + (i + 1) = (i0 + 1) + i := by omega
      simp only [harith]
      exact ih i (i0 + 1) r h'

theorem rowPass_filter_zero (f : Nat → Row → List String) (rows : List Row)
    (i : Nat) (r : Row) (h : rows[i]? = some r) :
    (rowPass f rows 0).filter (fun e => e.masterIndex == i) =
      (if (f i r).isEmpty then []
       else [log_invalid_row r.sourceFile i r.originalRow (f i r)]) := by
  have := rowPass_filter f rows i 0 r h
  simpa using this

theorem to_datetime_idem (c : Cell) : to_datetime (to_datetime c) = to_datetime c := by
  cases c with
  | null => rfl
  | date d => rfl
  | bool b => rfl
  | str s =>
    cases h : parseMDY s with
    | none => simp [to_datetime, h]
    | some d => simp [to_datetime, h]

theorem getD_of_getElem? {l : List Row} {i : Nat} {r : Row} (h : l[i]? = some r) :
    l.getD i default = r := by
  rw [List.getD_eq_getElem?_getD, h]
  rfl

theorem length_filter_range_getD (p : Row → Bool) :
    ∀ l : List Row,
      ((List.range l.length).filter (fun i => p (l.getD i default))).length =
        (l.filter p).length := by
  intro l
  induction l with
  | nil => simp
  | cons x xs ih =>
    rw [List.length_cons, List.range_succ_eq_map, List.filter_cons]
    rw [List.filter_map Nat.succ (List.range xs.length)]
    have hpred : ((fun i => p ((x :: xs).getD i default)) ∘ Nat.succ)
        = (fun i => p (xs.getD i default)) := by
      funext i
      simp [Function.comp, List.getD_cons_succ]
    rw [hpred, List.getD_cons_zero]
    by_cases hx : p x
    · rw [if_pos hx, List.filter_cons, if_pos hx]
      rw [List.length_cons, List.length_cons, List.length_map, ih]
    · rw [if_neg hx, List.filter_cons, if_neg hx]
      rw [List.length_map]
      exact ih

theorem dupIdxs_length (rows : List Row) (s : String) :
    (dupIdxs rows s).length = barcodeCount rows (Cell.str s) := by
  unfold dupIdxs barcodeCount
  exact length_filter_range_getD (fun r => r.barcode == Cell.str s) rows

theorem filter_flatMap_comm (p : LogEntry → Bool)
    (f : String × List Nat → List LogEntry) :
    ∀ l : List (String × List Nat),
      (l.flatMap f).filter p = l.flatMap (fun x => (f x).filter p) := by
  intro l
  induction l with
  | nil => rfl
  | cons x xs ih => simp [List.flatMap_cons, List.filter_append, ih]

theorem filter_beq_of_nodup :
    ∀ {l : List Nat} {i : Nat}, l.Nodup → i ∈ l →
      l.filter (fun j => j == i) = [i] := by
  intro l
  induction l with
  | nil =>
    intro i _ hi
    simp at hi
  | cons x xs ih =>
    intro i hnd hi
    rw [List.filter_cons]
    rcases List.mem_cons.mp hi with heq | hmem
    · subst heq
      have hnotin : i ∉ xs := (List.nodup_cons.mp hnd).1
      have hrest : xs.filter (fun j => j == i) = [] := by
        refine List.filter_eq_nil_iff.mpr ?_
        intro a ha
        simp only [beq_iff_eq]
        intro heq2
        exact hnotin (heq2 ▸ ha)
      simp [hrest]
    · have hx : ¬ (x == i) = true := by
        simp only [beq_iff_eq]
        intro heq2
        subst heq2
        exact (List.nodup_cons.mp hnd).1 hmem
      rw [if_neg hx]
      exact ih (List.nodup_cons.mp hnd).2 hmem

theorem dupIdxs_mem_iff (rows : List Row) (s : String) (i : Nat) :
    i ∈ dupIdxs rows s ↔
      i < rows.length ∧ (rows.getD i default).barcode = Cell.str s := by
  unfold dupIdxs
  rw [List.mem_filter, List.mem_range]
  simp [beq_iff_eq]

theorem dupIdxs_nodup (rows : List Row) (s : String) : (dupIdxs rows s).Nodup :=
  List.Nodup.filter _ (List.nodup_range rows.length)

theorem barcodeStr_eq_some (c : Cell) (s : String) :
    barcodeStr c = some s ↔ c = Cell.str s := by
  cases c <;> simp [barcodeStr]

theorem dupKeys_nodup (rows : List Row) : (dupKeys rows).Nodup := by
  unfold dupKeys
  exact (List.perm_insertionSort _ _).nodup_iff.mpr (List.nodup_dedup _)

theorem mem_dupKeys (rows : List Row) (s : String) :
    s ∈ dupKeys rows ↔ ∃ x ∈ rows, x.barcode = Cell.str s := by
  unfold dupKeys
  rw [(List.perm_insertionSort _ _).mem_iff, List.mem_dedup, List.mem_filterMap]
  constructor
  · rintro ⟨x, hx, hbx⟩
    exact ⟨x, hx, (barcodeStr_eq_some x.barcode s).mp hbx⟩
  · rintro ⟨x, hx, hbx⟩
    exact ⟨x, hx, (barcodeStr_eq_some x.barcode s).mpr hbx⟩

theorem exists_barcode_of_count (rows : List Row) (s : String)
    (h2 : 1 ≤ barcodeCount rows (Cell.str s)) :
    ∃ x ∈ rows, x.barcode = Cell.str s := by
  unfold barcodeCount at h2
  have hne : rows.filter (fun r => r.barcode == Cell.str s) ≠ [] := by
    intro hnil
    rw [hnil] at h2
    simp at h2
  obtain ⟨x, hx⟩ := List.exists_mem_of_ne_nil _ hne
  have hmem := List.mem_filter.mp hx
  exact ⟨x, hmem.1, by simpa [beq_iff_eq] using hmem.2⟩

theorem barcodeIsUnique_eq_false (rows : List Row) (s : String)
    (hcount : 2 ≤ barcodeCount rows (Cell.str s)) :
    barcodeIsUnique rows = false := by
  obtain ⟨x, hx, hbx⟩ := exists_barcode_of_count rows s (by omega)
  by_contra hne
  have htrue : barcodeIsUnique rows = true := by
    cases hall : barcodeIsUnique rows with
    | true => rfl
    | false => exact absurd hall hne
  have hone := (List.all_eq_true.mp htrue) x hx
  rw [hbx] at hone
  have : barcodeCount rows (Cell.str s) = 1 := by simpa using hone
  omega

theorem validate_barcodeid_ok (rows : List Row) (s : String)
    (hcount : 2 ≤ barcodeCount rows (Cell.str s)) :
    (validate_barcodeid rows).2 =
      Except.ok (barcodePerRowEntries rows ++ dupPassEntries rows) := by
  obtain ⟨x, hx, _⟩ := exists_barcode_of_count rows s (by omega)
  have hne : rows ≠ [] := by
    intro hnil
    subst hnil
    simp at hx
  obtain ⟨y, hy⟩ : ∃ y, rows.getLast? = some y := by
    cases hl : rows.getLast? with
    | none => exact absurd (List.getLast?_eq_none_iff.mp hl) hne
    | some y => exact ⟨y, rfl⟩
  have huniq := barcodeIsUnique_eq_false rows s hcount
  simp only [validate_barcodeid, hy, huniq]
  simp

theorem getElem?_lt_length {l : List Row} {i : Nat} {r : Row}
    (h : l[i]? = some r) : i < l.length := by
  by_contra hge
  push_neg at hge
  rw [List.getElem?_eq_none hge] at h
  exact Option.noConfusion h

theorem dupGroupEntries_filter_self (rows : List Row) (i : Nat) (r : Row)
    (s : String) (h : rows[i]? = some r) (hb : r.barcode = Cell.str s) :
    (dupGroupEntries rows (s, dupIdxs rows s)).filter
        (fun e => e.masterIndex == i) =
      [log_invalid_row r.sourceFile i r.originalRow
        [dupIssueStr s (dupIdxs rows s)]] := by
  have hmem : i ∈ dupIdxs rows s :=
    (dupIdxs_mem_iff rows s i).mpr
      ⟨getElem?_lt_length h, by rw [getD_of_getElem? h]; exact hb⟩
  unfold dupGroupEntries
  rw [List.filter_map]
  have hpred : ((fun e => e.masterIndex == i) ∘ fun j =>
      log_invalid_row (rows.getD j default).sourceFile j
        (rows.getD j default).originalRow
        [dupIssueStr (s, dupIdxs rows s).1 (s, dupIdxs rows s).2]) =
      (fun j => j == i) := rfl
  rw [hpred, filter_beq_of_nodup (dupIdxs_nodup rows s) hmem]
  rw [List.map_singleton, getD_of_getElem? h]

theorem dupGroupEntries_filter_ne (rows : List Row) (i : Nat) (r : Row)
    (s t : String) (h : rows[i]? = some r) (hb : r.barcode = Cell.str s)
    (hts : t ≠ s) :
    (dupGroupEntries rows (t, dupIdxs rows t)).filter
        (fun e => e.masterIndex == i) = [] := by
  refine List.filter_eq_nil_iff.mpr ?_
  intro e he
  rcases List.mem_map.mp he with ⟨j, hj, hej⟩
  subst hej
  simp only [log_invalid_row, beq_iff_eq]
  intro hji
  subst hji
  have hmem := (dupIdxs_mem_iff rows t j).mp hj
  rw [getD_of_getElem? h, hb] at hmem
  exact hts (Cell.str.inj hmem.2).symm

theorem dupKeysLoop_filter_none (rows : List Row) (i : Nat) (r : Row)
    (s : String) (h : rows[i]? = some r) (hb : r.barcode = Cell.str s) :
    ∀ keys : List String, s ∉ keys →
      ((keys.filterMap (dupGroupOf rows)).flatMap (dupGroupEntries rows)).filter
          (fun e => e.masterIndex == i) = [] := by
  intro keys
  induction keys with
  | nil =>
    intro _
    rfl
  | cons t ts ih =>
    intro hs
    have hts : t ≠ s := fun hts2 => hs (hts2 ▸ List.mem_cons_self t ts)
    have hrest : s ∉ ts := fun hmem => hs (List.mem_cons_of_mem t hmem)
    cases hgo : dupGroupOf rows t with
    | none =>
      rw [List.filterMap_cons_none hgo]
      exact ih hrest
    | some g =>
      have hg : g = (t, dupIdxs rows t) := by
        simp only [dupGroupOf] at hgo
        split at hgo
        · exact (Option.some.inj hgo).symm
        · exact Option.noConfusion hgo
      rw [List.filterMap_cons_some hgo, List.flatMap_cons, List.filter_append]
      rw [hg, dupGroupEntries_filter_ne rows i r s t h hb hts, List.nil_append]
      exact ih hrest

theorem dupKeysLoop_filter (rows : List Row) (i : Nat) (r : Row) (s : String)
    (h : rows[i]? = some r) (hb : r.barcode = Cell.str s)
    (hlen : 2 ≤ (dupIdxs rows s).length) :
    ∀ keys : List String, keys.Nodup → s ∈ keys →
      ((keys.filterMap (dupGroupOf rows)).flatMap (dupGroupEntries rows)).filter
          (fun e => e.masterIndex == i) =
        [log_invalid_row r.sourceFile i r.originalRow
          [dupIssueStr s (dupIdxs rows s)]] := by
  intro keys
  induction keys with
  | nil =>
    intro _ hs
    simp at hs
  | cons t ts ih =>
    intro hnd hs
    rcases List.mem_cons.mp hs with heq | hmem
    · subst heq
      have hgo : dupGroupOf rows s = some (s, dupIdxs rows s) := by
        simp only [dupGroupOf]
        rw [if_pos hlen]
      rw [List.filterMap_cons_some hgo, List.flatMap_cons, List.filter_append]
      rw [dupGroupEntries_filter_self rows i r s h hb]
      rw [dupKeysLoop_filter_none rows i r s h hb ts (List.nodup_cons.mp hnd).1]
      rfl
    · have hts : t ≠ s := by
        intro hts2
        exact (List.nodup_cons.mp hnd).1 (hts2 ▸ hmem)
      cases hgo : dupGroupOf rows t with
      | none =>
        rw [List.filterMap_cons_none hgo]
        exact ih (List.nodup_cons.mp hnd).2 hmem
      | some g =>
        have hg : g = (t, dupIdxs rows t) := by
          simp only [dupGroupOf] at hgo
          split at hgo
          · exact (Option.some.inj hgo).symm
          · exact Option.noConfusion hgo
        rw [List.filterMap_cons_some hgo, List.flatMap_cons, List.filter_append]
        rw [hg, dupGroupEntries_filter_ne rows i r s t h hb hts,
          List.nil_append]
        exact ih (List.nodup_cons.mp hnd).2 hmem

theorem dupPassEntries_filter (rows : List Row) (i : Nat) (r : Row)
    (s : String) (h : rows[i]? = some r) (hb : r.barcode = Cell.str s)
    (hcount : 2 ≤ barcodeCount rows (Cell.str s)) :
    (dupPassEntries rows).filter (fun e => e.masterIndex == i) =
      [log_invalid_row r.sourceFile i r.originalRow
        [dupIssueStr s (dupIdxs rows s)]] := by
  have hlen : 2 ≤ (dupIdxs rows s).length := by
    rw [dupIdxs_length]
    exact hcount
  have hmem : s ∈ dupKeys rows := by
    rw [mem_dupKeys]
    exact exists_barcode_of_count rows s (by omega)
  unfold dupPassEntries dupGroups
  exact dupKeysLoop_filter rows i r s h hb hlen (dupKeys rows)
    (dupKeys_nodup rows) hmem

/-! ## Claims -/

/-- A concrete row used to instantiate the general theorems on a concrete
table. -/
def sampleRow : Row :=
  { barcode := Cell.str "AB123456", ptid := Cell.null,
    dateCollected := Cell.str "02/14/2020", available := Cell.str "N",
    sourceFile := "f.xlsx", originalRow := 2 }

/-- Claim C7: in the patient-ID validator, a missing Patient_Study_ID
yields the issue PTID is NA; a non-null value whose string form contains
none of the substrings C, H, IN yields the badly-formatted issue; a
non-null value containing at least one of them yields no issue; each row
with an issue logs exactly one Diagnostic Entry, and the validator never
mutates the table. -/
theorem ptid_validator_correct (rows : List Row) (i : Nat) (r : Row)
    (h : rows[i]? = some r) :
    (validate_ptid rows).1 = rows ∧
    (validate_ptid rows).2.filter (fun e => e.masterIndex == i) =
      (if (ptidRowIssues r.ptid).isEmpty then []
       else [log_invalid_row r.sourceFile i r.originalRow
               (ptidRowIssues r.ptid)]) ∧
    (r.ptid.isNull = true → ptidRowIssues r.ptid = ["PTID is NA"]) ∧
    (r.ptid.isNull = false →
      ((["C", "H", "IN"].any fun t => strContains (Cell.pyStr r.ptid) t) = false →
        ptidRowIssues r.ptid =
          ["PTID " ++ quoted (Cell.pyStr r.ptid) ++ " is not correctly formatted"]) ∧
      ((["C", "H", "IN"].any fun t => strContains (Cell.pyStr r.ptid) t) = true →
        ptidRowIssues r.ptid = [])) := by
  refine ⟨rfl, rowPass_filter_zero _ rows i r h, ?_, ?_⟩
  · intro hn
    simp [ptidRowIssues, hn]
  · intro hn
    constructor
    · intro hany
      simp [ptidRowIssues, hn, hany]
    · intro hany
      simp [ptidRowIssues, hn, hany]

theorem ptid_validator_correct_witness :
    (validate_ptid [sampleRow]).1 = [sampleRow] ∧
    (validate_ptid [sampleRow]).2.filter (fun e => e.masterIndex == 0) =
      (if (ptidRowIssues sampleRow.ptid).isEmpty then []
       else [log_invalid_row sampleRow.sourceFile 0 sampleRow.originalRow
               (ptidRowIssues sampleRow.ptid)]) :=
  ⟨(ptid_validator_correct [sampleRow] 0 sampleRow rfl).1,
   (ptid_validator_correct [sampleRow] 0 sampleRow rfl).2.1⟩

/-- Claim C2: the collection-date validator first replaces every
Date_Collected value by its parse under the month/day/year format, coercing
parse failures to the missing marker; then a missing normalized date yields
the NA issue, a date strictly before 2020-02-14 or strictly after the
run-time current date yields the out-of-range issue with inclusive bounds,
an in-range date yields no issue while the field holds the parsed date, and
each row with an issue logs one Diagnostic Entry. -/
theorem collection_date_validator_correct (today : Nat) (rows : List Row)
    (i : Nat) (r : Row) (h : rows[i]? = some r) :
    ((validate_collection_date today rows).1)[i]? =
      some { r with dateCollected := to_datetime r.dateCollected } ∧
    (∀ s, parseMDY s = none → to_datetime (Cell.str s) = Cell.null) ∧
    (∀ s d, parseMDY s = some d → to_datetime (Cell.str s) = Cell.date d) ∧
    (validate_collection_date today rows).2.filter
        (fun e => e.masterIndex == i) =
      (if (dateRowIssues today (to_datetime r.dateCollected)).isEmpty then []
       else [log_invalid_row r.sourceFile i r.originalRow
               (dateRowIssues today (to_datetime r.dateCollected))]) ∧
    dateRowIssues today Cell.null = ["Date_Collected is NA"] ∧
    (∀ d, startDate ≤ d → d ≤ today →
      dateRowIssues today (Cell.date d) = []) ∧
    (∀ d, d < startDate ∨ today < d →
      dateRowIssues today (Cell.date d) =
        ["Date_Collected is outside of range, date: " ++ tsRepr d]) := by
  have hmap : ((rows.map (fun r =>
      { r with dateCollected := to_datetime r.dateCollected }))[i]?) =
      some { r with dateCollected := to_datetime r.dateCollected } := by
    rw [List.getElem?_map, h]
    rfl
  refine ⟨hmap, ?_, ?_, ?_, ?_, ?_, ?_⟩
  · intro s hs
    simp [to_datetime, hs]
  · intro s d hs
    simp [to_datetime, hs]
  · exact rowPass_filter_zero _ _ i _ hmap
  · rfl
  · intro d h1 h2
    simp only [dateRowIssues, Cell.isNull, Bool.false_eq_true, if_false]
    rw [if_neg (by omega)]
  · intro d hout
    simp only [dateRowIssues, Cell.isNull, Bool.false_eq_true, if_false]
    rw [if_pos hout]

theorem collection_date_validator_correct_witness :
    ((validate_collection_date 20251012 [sampleRow]).1)[0]? =
      some { sampleRow with
        dateCollected := to_datetime sampleRow.dateCollected } ∧
    (validate_collection_date 20251012 [sampleRow]).2.filter
        (fun e => e.masterIndex == 0) =
      (if (dateRowIssues 20251012
            (to_datetime sampleRow.dateCollected)).isEmpty then []
       else [log_invalid_row sampleRow.sourceFile 0 sampleRow.originalRow
               (dateRowIssues 20251012
                 (to_datetime sampleRow.dateCollected))]) :=
  ⟨(collection_date_validator_correct 20251012 [sampleRow] 0 sampleRow rfl).1,
   (collection_date_validator_correct 20251012 [sampleRow] 0 sampleRow
     rfl).2.2.2.1⟩

/-- Claim C6: in the identifier validator the length check precedes the
null check and the length is computed on the string representation: a
missing value whose string representation has length other than 8 is
reported with the length-mismatch issue, not the NA issue, and the NA issue
can fire only when the length check did not. -/
theorem barcode_length_before_null (c : Cell) (_hnull : c.isNull = true)
    (hlen : (Cell.pyStr c).length ≠ 8) :
    barcodeRowIssues c =
      ["Barcode_ID " ++ quoted (Cell.pyStr c)
        ++ " length is not equal to 8"] ∧
    (∀ c2 : Cell, barcodeRowIssues c2 = ["Barcode_ID is NA"] →
      (Cell.pyStr c2).length = 8) := by
  constructor
  · simp [barcodeRowIssues, hlen]
  · intro c2 h2
    by_contra hne
    unfold barcodeRowIssues at h2
    rw [if_pos hne] at h2
    have hxa : "Barcode_ID " ++ quoted (Cell.pyStr c2)
        ++ " length is not equal to 8" = "Barcode_ID is NA" := by
      injection h2
    have hlenx := congrArg String.length hxa
    rw [String.length_append, String.length_append] at hlenx
    have hq : (quoted (Cell.pyStr c2)).length = (Cell.pyStr c2).length + 2 := by
      unfold quoted
      rw [String.length_append, String.length_append]
      have hsq : sglQuote.length = 1 := rfl
      rw [hsq]
      omega
    have hc1 : ("Barcode_ID " : String).length = 11 := rfl
    have hc2 : (" length is not equal to 8" : String).length = 25 := rfl
    have hc3 : ("Barcode_ID is NA" : String).length = 16 := rfl
    rw [hq, hc1, hc2, hc3] at hlenx
    omega

theorem barcode_length_before_null_witness :
    Cell.isNull Cell.null = true ∧
    (Cell.pyStr Cell.null).length ≠ 8 ∧
    barcodeRowIssues Cell.null =
      ["Barcode_ID " ++ quoted (Cell.pyStr Cell.null)
        ++ " length is not equal to 8"] :=
  ⟨rfl, by decide,
   (barcode_length_before_null Cell.null rfl (by decide)).1⟩

/-- Claim C10: every validator preserves each row's SourceFile and
OriginalRow values and removes no rows; the only fields any validator
rewrites are Date_Collected and Available. -/
theorem validators_preserve_provenance (today : Nat) (rows : List Row)
    (i : Nat) (r : Row) (h : rows[i]? = some r) :
    (validate_barcodeid rows).1 = rows ∧
    (validate_ptid rows).1 = rows ∧
    (validate_collection_date today rows).1.length = rows.length ∧
    ((validate_collection_date today rows).1)[i]? =
      some { r with dateCollected := to_datetime r.dateCollected } ∧
    (validate_available rows).1.length = rows.length ∧
    ((validate_available rows).1)[i]? =
      some { r with available := availNewValue r.available } := by
  refine ⟨rfl, rfl, ?_, ?_, ?_, ?_⟩
  · simp [validate_collection_date]
  · have hx : (validate_collection_date today rows).1 =
        rows.map (fun x =>
          { x with dateCollected := to_datetime x.dateCollected }) := rfl
    rw [hx, List.getElem?_map, h]
    rfl
  · simp [validate_available]
  · have hx : (validate_available rows).1 =
        rows.map (fun x => { x with available := availNewValue x.available }) :=
      rfl
    rw [hx, List.getElem?_map, h]
    rfl

theorem validators_preserve_provenance_witness :
    (validate_barcodeid [sampleRow]).1 = [sampleRow] ∧
    ((validate_available [sampleRow]).1)[0]? =
      some { sampleRow with available := availNewValue sampleRow.available } :=
  ⟨(validators_preserve_provenance 0 [sampleRow] 0 sampleRow rfl).1,
   (validators_preserve_provenance 0 [sampleRow] 0 sampleRow
     rfl).2.2.2.2.2⟩

/-- Claim C9: the Consolidated Table builder fails with an error when the
set of per-file row collections to concatenate is empty, and otherwise
returns a table containing every row of every file. -/
theorem extract_data_empty_fails (dfs : List (List Row)) :
    (dfs = [] → extract_data dfs =
      Except.error "EmptyInputError: no objects to concatenate") ∧
    (dfs ≠ [] → ∃ t, extract_data dfs = Except.ok t ∧
      ∀ df ∈ dfs, ∀ r ∈ df, r ∈ t) := by
  constructor
  · intro hnil
    subst hnil
    rfl
  · intro hne
    refine ⟨dfs.flatten, ?_, ?_⟩
    · unfold extract_data
      rw [if_neg (by simpa using hne)]
    · intro df hdf r hr
      exact List.mem_flatten.mpr ⟨df, hdf, hr⟩

theorem extract_data_empty_fails_witness :
    (extract_data ([] : List (List Row)) =
      Except.error "EmptyInputError: no objects to concatenate") ∧
    (∃ t, extract_data [[sampleRow]] = Except.ok t ∧
      ∀ df ∈ [[sampleRow]], ∀ r ∈ df, r ∈ t) :=
  ⟨(extract_data_empty_fails []).1 rfl,
   (extract_data_empty_fails [[sampleRow]]).2 (List.cons_ne_nil _ _)⟩

theorem barcodeCount_pos {rows : List Row} {r : Row} (hr : r ∈ rows) :
    1 ≤ barcodeCount rows r.barcode := by
  have hmem : r ∈ rows.filter (fun x => x.barcode == r.barcode) :=
    List.mem_filter.mpr ⟨hr, by simp⟩
  exact List.length_pos_of_mem hmem

/-- Claim C8: the duplicate-reporting loop reads a grouping variable that is
assigned only in the branch taken when duplicates exist, so on a table in
which no identifier value occurs twice the identifier validator raises an
unbound-name error instead of completing, and it completes only when at
least one duplicate group exists. -/
theorem barcode_unbound_grouped_when_unique (rows : List Row) :
    ((∀ r ∈ rows, barcodeCount rows r.barcode ≤ 1) →
      ∃ msg, (validate_barcodeid rows).2 = Except.error msg) ∧
    (∀ entries, (validate_barcodeid rows).2 = Except.ok entries →
      ∃ r ∈ rows, 2 ≤ barcodeCount rows r.barcode) := by
  constructor
  · intro hall
    cases hlast : rows.getLast? with
    | none =>
      exact ⟨"UnboundLocalError: issues", by simp [validate_barcodeid, hlast]⟩
    | some y =>
      have huniq : barcodeIsUnique rows = true := by
        rw [barcodeIsUnique, List.all_eq_true]
        intro x hx
        have hle := hall x hx
        have hge : 1 ≤ barcodeCount rows x.barcode := barcodeCount_pos hx
        have heq : barcodeCount rows x.barcode = 1 := by omega
        simpa using heq
      exact ⟨"UnboundLocalError: grouped",
        by simp [validate_barcodeid, hlast, huniq]⟩
  · intro entries hok
    cases hlast : rows.getLast? with
    | none => simp [validate_barcodeid, hlast] at hok
    | some y =>
      by_cases huniq : barcodeIsUnique rows = true
      · simp [validate_barcodeid, hlast, huniq] at hok
      · have hfalse : barcodeIsUnique rows = false := by
          cases hb : barcodeIsUnique rows
          · rfl
          · exact absurd hb huniq
        unfold barcodeIsUnique at hfalse
        obtain ⟨x, hx, hne⟩ := List.all_eq_false.mp hfalse
        have h1 : 1 ≤ barcodeCount rows x.barcode := barcodeCount_pos hx
        have hne1 : barcodeCount rows x.barcode ≠ 1 := by simpa using hne
        exact ⟨x, hx, by omega⟩

theorem barcode_unbound_grouped_when_unique_witness :
    ∃ msg, (validate_barcodeid [sampleRow]).2 = Except.error msg :=
  (barcode_unbound_grouped_when_unique [sampleRow]).1 (by decide)

theorem dupPass_filter_null (rows : List Row) (i : Nat) (r : Row)
    (h : rows[i]? = some r) (hb : r.barcode = Cell.null) :
    (dupPassEntries rows).filter (fun e => e.masterIndex == i) = [] := by
  refine List.filter_eq_nil_iff.mpr ?_
  intro e he
  unfold dupPassEntries dupGroups at he
  rcases List.mem_flatMap.mp he with ⟨g, hg, heg⟩
  rcases List.mem_filterMap.mp hg with ⟨t, _, hgo⟩
  have hgt : g = (t, dupIdxs rows t) := by
    simp only [dupGroupOf] at hgo
    split at hgo
    · exact (Option.some.inj hgo).symm
    · exact Option.noConfusion hgo
  subst hgt
  rcases List.mem_map.mp heg with ⟨j, hj, hej⟩
  subst hej
  simp only [log_invalid_row, beq_iff_eq]
  intro hji
  subst hji
  have hmem := (dupIdxs_mem_iff rows t j).mp hj
  rw [getD_of_getElem? h, hb] at hmem
  exact Cell.noConfusion hmem.2

/-- Two rows with a missing Barcode_ID, used to exhibit the behaviour of
the duplicate pass on a duplicated missing value. -/
def nullRowA : Row :=
  { barcode := Cell.null, ptid := Cell.null, dateCollected := Cell.null,
    available := Cell.null, sourceFile := "a.xlsx", originalRow := 2 }

def nullRowB : Row :=
  { barcode := Cell.null, ptid := Cell.null, dateCollected := Cell.null,
    available := Cell.null, sourceFile := "b.xlsx", originalRow := 3 }

/-- Claim C4 counterexample: on a table whose two rows both carry a missing
Barcode_ID, the value occurs in two rows and nothing is excluded by the
claim, yet the duplicate pass produces no entry at all: groupby drops the
missing key, so neither member row receives a duplicate Diagnostic Entry
(the validator completes, returning only the per-row block's entry). -/
theorem duplicate_null_group_unreported :
    2 ≤ barcodeCount [nullRowA, nullRowB] Cell.null ∧
    dupPassEntries [nullRowA, nullRowB] = [] ∧
    (validate_barcodeid [nullRowA, nullRowB]).2 =
      Except.ok [log_invalid_row "b.xlsx" 1 3
        ["Barcode_ID " ++ quoted "nan" ++ " length is not equal to 8"]] :=
  ⟨by decide, rfl, rfl⟩

/-- Claim C4 (amended): in the identifier validator's duplicate pass, every
non-null identifier value that occurs in at least 2 rows yields, for every
member row of the group, exactly one duplicate-pass Diagnostic Entry
carrying the single duplicate issue with the same full list of table
indices repeated in every member's entry, and these entries appear in the
validator's output; duplicate groups whose value is missing/null are
excluded by the grouping and produce no entries. -/
theorem duplicate_groups_report_members (rows : List Row) (i : Nat) (r : Row)
    (h : rows[i]? = some r) :
    (∀ s, r.barcode = Cell.str s → 2 ≤ barcodeCount rows (Cell.str s) →
      (dupPassEntries rows).filter (fun e => e.masterIndex == i) =
        [log_invalid_row r.sourceFile i r.originalRow
          [dupIssueStr s (dupIdxs rows s)]] ∧
      ∃ entries, (validate_barcodeid rows).2 = Except.ok entries ∧
        log_invalid_row r.sourceFile i r.originalRow
          [dupIssueStr s (dupIdxs rows s)] ∈ entries) ∧
    (r.barcode = Cell.null →
      (dupPassEntries rows).filter (fun e => e.masterIndex == i) = []) := by
  constructor
  · intro s hb hcount
    have hfil := dupPassEntries_filter rows i r s h hb hcount
    refine ⟨hfil, barcodePerRowEntries rows ++ dupPassEntries rows,
      validate_barcodeid_ok rows s hcount, ?_⟩
    have hmem : log_invalid_row r.sourceFile i r.originalRow
        [dupIssueStr s (dupIdxs rows s)] ∈
        (dupPassEntries rows).filter (fun e => e.masterIndex == i) := by
      rw [hfil]
      exact List.mem_singleton.mpr rfl
    exact List.mem_append_right _ (List.mem_of_mem_filter hmem)
  · intro hb
    exact dupPass_filter_null rows i r h hb

/-- Two rows sharing the same well-formed Barcode_ID, used to instantiate
the duplicate-group theorem. -/
def dupRowA : Row :=
  { barcode := Cell.str "AB123456", ptid := Cell.str "C1",
    dateCollected := Cell.null, available := Cell.null,
    sourceFile := "a.xlsx", originalRow := 2 }

def dupRowB : Row :=
  { barcode := Cell.str "AB123456", ptid := Cell.str "C2",
    dateCollected := Cell.null, available := Cell.null,
    sourceFile := "b.xlsx", originalRow := 3 }

theorem duplicate_groups_report_members_witness :
    (dupPassEntries [dupRowA, dupRowB]).filter
        (fun e => e.masterIndex == 0) =
      [log_invalid_row "a.xlsx" 0 2
        [dupIssueStr "AB123456" (dupIdxs [dupRowA, dupRowB] "AB123456")]] ∧
    ∃ entries, (validate_barcodeid [dupRowA, dupRowB]).2 =
        Except.ok entries ∧
      log_invalid_row "a.xlsx" 0 2
        [dupIssueStr "AB123456" (dupIdxs [dupRowA, dupRowB] "AB123456")] ∈
        entries :=
  (duplicate_groups_report_members [dupRowA, dupRowB] 0 dupRowA rfl).1
    "AB123456" rfl (by decide)

/-- Two rows sharing the same 7-character Barcode_ID, both invalid under
the length rule. -/
def c1RowA : Row :=
  { barcode := Cell.str "AB12345", ptid := Cell.str "C1",
    dateCollected := Cell.null, available := Cell.null,
    sourceFile := "a.xlsx", originalRow := 2 }

def c1RowB : Row :=
  { barcode := Cell.str "AB12345", ptid := Cell.str "C2",
    dateCollected := Cell.null, available := Cell.null,
    sourceFile := "b.xlsx", originalRow := 3 }

/-- Claim C1: the per-row issue classification is as specified, but the
logging block sits outside the per-row loop, so only the final iteration's
issues are ever logged.  On a two-row table whose rows both carry the
invalid identifier AB12345, both rows classify as invalid, yet the per-row
block produces exactly one entry — for the final index 1 — and no entry
carrying the length issue for row 0 appears anywhere in the validator's
output (the other two entries are the duplicate pass's). -/
theorem barcode_per_row_block_logs_only_last :
    barcodeRowIssues c1RowA.barcode ≠ [] ∧
    barcodeRowIssues c1RowB.barcode ≠ [] ∧
    barcodePerRowEntries [c1RowA, c1RowB] =
      [log_invalid_row "b.xlsx" 1 3
        ["Barcode_ID " ++ quoted "AB12345" ++ " length is not equal to 8"]] ∧
    (validate_barcodeid [c1RowA, c1RowB]).2 =
      Except.ok
        [log_invalid_row "b.xlsx" 1 3
          ["Barcode_ID " ++ quoted "AB12345" ++ " length is not equal to 8"],
         log_invalid_row "a.xlsx" 0 2 [dupIssueStr "AB12345" [0, 1]],
         log_invalid_row "b.xlsx" 1 3 [dupIssueStr "AB12345" [0, 1]]] ∧
    (∀ e ∈ [log_invalid_row "b.xlsx" 1 3
          ["Barcode_ID " ++ quoted "AB12345" ++ " length is not equal to 8"],
        log_invalid_row "a.xlsx" 0 2 [dupIssueStr "AB12345" [0, 1]],
        log_invalid_row "b.xlsx" 1 3 [dupIssueStr "AB12345" [0, 1]]],
      ¬(e.masterIndex = 0 ∧
        e.issues = ["Barcode_ID " ++ quoted "AB12345"
          ++ " length is not equal to 8"])) :=
  ⟨by decide, by decide, rfl, rfl, by decide⟩

/-- Two rows whose Available values are an unknown string X and a known Y. -/
def c5RowA : Row :=
  { barcode := Cell.str "AB123456", ptid := Cell.str "C1",
    dateCollected := Cell.null, available := Cell.str "X",
    sourceFile := "a.xlsx", originalRow := 2 }

def c5RowB : Row :=
  { barcode := Cell.str "AB123456", ptid := Cell.str "C2",
    dateCollected := Cell.null, available := Cell.str "Y",
    sourceFile := "b.xlsx", originalRow := 3 }

/-- Claim C5: the availability rewriting is as specified (null, Y and any
unknown value become true, N becomes false), but the logging block sits
outside the loop: on a two-row table with the unknown value X in row 0 and
Y in row 1, row 0 classifies as unknown and every cell is rewritten to a
boolean, yet no Diagnostic Entry at all is logged, because only the final
row's (empty) issue list reaches the logging block. -/
theorem available_rewrites_but_logs_only_last :
    availNewValue Cell.null = Cell.bool true ∧
    availNewValue (Cell.str "N") = Cell.bool false ∧
    availNewValue (Cell.str "Y") = Cell.bool true ∧
    availNewValue (Cell.str "X") = Cell.bool true ∧
    availRowIssues 0 (Cell.str "X") ≠ [] ∧
    (validate_available [c5RowA, c5RowB]).1 =
      [{ c5RowA with available := Cell.bool true },
       { c5RowB with available := Cell.bool true }] ∧
    (validate_available [c5RowA, c5RowB]).2 = Except.ok [] :=
  ⟨rfl, rfl, rfl, rfl, by decide, rfl, rfl⟩

/-- One row whose Available value is the known string N, normalized to the
boolean false by a first run of the availability validator. -/
def availRowN : Row :=
  { barcode := Cell.str "AB123456", ptid := Cell.str "C1",
    dateCollected := Cell.date 20200214, available := Cell.str "N",
    sourceFile := "a.xlsx", originalRow := 2 }

/-- Claim C3 counterexample: the first availability run maps N to false
with no issue; running the validator again on that already-normalized
table rewrites the boolean false back to true — the value changes — and
logs a new unknown-availability entry for a row that was valid after the
first run. -/
theorem availability_revalidation_changes_values :
    (validate_available [availRowN]).1 =
      [{ availRowN with available := Cell.bool false }] ∧
    (validate_available [availRowN]).2 = Except.ok [] ∧
    (validate_available ((validate_available [availRowN]).1)).1 =
      [{ availRowN with available := Cell.bool true }] ∧
    (validate_available ((validate_available [availRowN]).1)).2 =
      Except.ok [log_invalid_row "a.xlsx" 0 2
        ["Availability is unknown at index: 0, check to confirm availability"]] :=
  ⟨rfl, rfl, rfl, rfl⟩

/-- Claim C3 (amended): re-running the collection-date validator on an
already-normalized table (with the same run-time current date) leaves every
Date_Collected value unchanged and appends no entry for any row in range
after the first run; re-running the availability validator, however,
rewrites every boolean Available value to true — changing false values to
true — and classifies every boolean value as unknown availability. -/
theorem revalidation_date_stable_availability_not :
    (∀ today rows,
      (validate_collection_date today
        ((validate_collection_date today rows).1)).1 =
      (validate_collection_date today rows).1) ∧
    (∀ today rows i r,
      ((validate_collection_date today rows).1)[i]? = some r →
      dateRowIssues today r.dateCollected = [] →
      ∀ e ∈ (validate_collection_date today
          ((validate_collection_date today rows).1)).2,
        e.masterIndex ≠ i) ∧
    (∀ rows i r b, rows[i]? = some r → r.available = Cell.bool b →
      ((validate_available rows).1)[i]? =
        some { r with available := Cell.bool true } ∧
      availRowIssues i (Cell.bool b) ≠ []) := by
  have hgg : ∀ x : Row,
      (({ x with dateCollected := to_datetime x.dateCollected } : Row)
        |> fun y => { y with dateCollected := to_datetime y.dateCollected }) =
      ({ x with dateCollected := to_datetime x.dateCollected } : Row) := by
    intro x
    simp [to_datetime_idem]
  refine ⟨?_, ?_, ?_⟩
  · intro today rows
    have h1 : (validate_collection_date today rows).1 =
        rows.map (fun x =>
          { x with dateCollected := to_datetime x.dateCollected }) := rfl
    have h2 : (validate_collection_date today
        ((validate_collection_date today rows).1)).1 =
        ((validate_collection_date today rows).1).map (fun x =>
          { x with dateCollected := to_datetime x.dateCollected }) := rfl
    rw [h2, h1, List.map_map]
    exact List.map_congr_left (fun a _ => hgg a)
  · intro today rows i r hr hri e he hei
    have hmap2 : ((((validate_collection_date today rows).1).map (fun x =>
        { x with dateCollected := to_datetime x.dateCollected }))[i]?) =
        some { r with dateCollected := to_datetime r.dateCollected } := by
      rw [List.getElem?_map, hr]
      rfl
    obtain ⟨r0, h0, hgr⟩ : ∃ r0, rows[i]? = some r0 ∧
        ({ r0 with dateCollected := to_datetime r0.dateCollected } : Row) = r := by
      have hx : (rows.map (fun x =>
          { x with dateCollected := to_datetime x.dateCollected }))[i]? =
          some r := hr
      rw [List.getElem?_map] at hx
      cases h0 : rows[i]? with
      | none =>
        rw [h0] at hx
        simp at hx
      | some r0 =>
        rw [h0] at hx
        exact ⟨r0, rfl, by simpa using hx⟩
    have hdc : to_datetime r.dateCollected = r.dateCollected := by
      rw [← hgr]
      exact to_datetime_idem r0.dateCollected
    have hfil := rowPass_filter_zero
      (fun _ x => dateRowIssues today x.dateCollected)
      (((validate_collection_date today rows).1).map (fun x =>
        { x with dateCollected := to_datetime x.dateCollected }))
      i { r with dateCollected := to_datetime r.dateCollected } hmap2
    have hissue : dateRowIssues today (to_datetime r.dateCollected) = [] := by
      rw [hdc]
      exact hri
    simp only [hissue, List.isEmpty_nil, if_true] at hfil
    have hmem : e ∈ List.filter (fun e => e.masterIndex == i)
        (rowPass (fun _ x => dateRowIssues today x.dateCollected)
          (((validate_collection_date today rows).1).map (fun x =>
            { x with dateCollected := to_datetime x.dateCollected }))
          0) :=
      List.mem_filter.mpr ⟨he, by simp [hei]⟩
    rw [hfil] at hmem
    simp at hmem
  · intro rows i r b hr hb
    constructor
    · have hx : (validate_available rows).1 =
          rows.map (fun x => { x with available := availNewValue x.available }) :=
        rfl
      have hv : availNewValue r.available = Cell.bool true := by
        rw [hb]
        cases b <;> rfl
      rw [hx, List.getElem?_map, hr]
      simp [hv]
    · cases b <;> simp [availRowIssues, Cell.isNull]

/-- One row whose Available value is already the boolean false, as the
availability validator leaves it after normalizing the value N. -/
def boolRow : Row :=
  { barcode := Cell.str "AB123456", ptid := Cell.str "C1",
    dateCollected := Cell.date 20200214, available := Cell.bool false,
    sourceFile := "a.xlsx", originalRow := 2 }

theorem revalidation_date_stable_availability_not_witness :
    (((validate_available [boolRow]).1)[0]? =
      some { boolRow with available := Cell.bool true } ∧
     availRowIssues 0 (Cell.bool false) ≠ []) ∧
    (∀ e ∈ (validate_collection_date 20251012
        ((validate_collection_date 20251012 [sampleRow]).1)).2,
      e.masterIndex ≠ 0) :=
  ⟨revalidation_date_stable_availability_not.2.2 [boolRow] 0 boolRow false
     rfl rfl,
   revalidation_date_stable_availability_not.2.1 20251012 [sampleRow] 0
     { sampleRow with dateCollected := to_datetime sampleRow.dateCollected }
     rfl (by decide)⟩
